import Mathlib

/-!
Verification of the `Motor` class of `rumble.py` (single-axis stepper-motor
controller).  The Python source is shallowly embedded: machine integers are
`Int`/`Nat`, register writes are recorded as an explicit trace, Python
exceptions become an `Err` sum type, and float arithmetic is modelled
exactly over `ℚ`.
-/

/-- Failure modes of the embedded code.  Explicit `raise Exception(msg)`
statements in the source become `exception msg`; `zeroDivision`,
`valueError` and `typeError` model the Python runtime errors
`ZeroDivisionError`, `ValueError` and `TypeError` that the source can
trigger implicitly. -/
inductive Err where
  | exception : String → Err
  | zeroDivision : Err
  | valueError : Err
  | typeError : Err
deriving DecidableEq

/-- One register write issued through `ljm.eWriteName(handle, reg, val)`. -/
structure Write where
  reg : String
  val : Int
deriving DecidableEq

/-- The mutable attributes of a `Motor` instance (rumble.py lines 113-133).
Float-valued attributes (`cal_zero`, `cal_slope`) are modelled over `ℚ`. -/
structure Motor where
  invert : Bool
  dir_pin : Int
  dir_reg : String
  pulse_pin : Int
  pulse_reg : String
  home_pin : Int
  home_reg : String
  counts : Int
  cal_zero : ℚ
  cal_slope : ℚ
  cal_units : String
  lim_upper : Option Int
  lim_lower : Option Int

/-- The device-side state visible through `ljm.eReadName`:  the clock
registers, the `DIO_DIRECTION` mask, and the successive values returned by
reads of the home pin register (`home_read k` is the result of the k-th
read; read 0 is the initial read taken by `Motor.home`). -/
structure Env where
  clock_roll : Nat
  clock_divisor : Nat
  dio_direction : Nat
  home_read : Nat → Int

/-- `Motor.__init__` (lines 113-133): the freshly constructed motor. -/
def initMotor : Motor :=
  { invert := false, dir_pin := -1, dir_reg := "", pulse_pin := -1,
    pulse_reg := "", home_pin := -1, home_reg := "", counts := 0,
    cal_zero := 0, cal_slope := 1, cal_units := "counts",
    lim_upper := none, lim_lower := none }

/-- The software-limit clamping logic of `Motor.increment`
(lines 467-478): the direction is the sign test `value > 0`; a positive
move is capped by `lim_upper`, a non-positive one by `lim_lower`, and an
unset bound imposes no cap. -/
def clampValue (m : Motor) (value : Int) : Int :=
  if 0 < value then
    match m.lim_upper with
    | some u => min value (u - m.counts)
    | none => value
  else
    match m.lim_lower with
    | some l => max value (l - m.counts)
    | none => value

/-- The pulse frequency `80e6 / divisor / roll` computed by
`Motor.get_clock_hz` (lines 239-244); Python float division by zero
raises `ZeroDivisionError`. -/
def clock_hz (roll divisor : Nat) : Except Err ℚ :=
  if divisor = 0 then .error .zeroDivision
  else if roll = 0 then .error .zeroDivision
  else .ok (80000000 / (divisor : ℚ) / (roll : ℚ))

/-- `Motor.get_clock_hz` reading the clock registers from the device. -/
def get_clock_hz (e : Env) : Except Err ℚ :=
  clock_hz e.clock_roll e.clock_divisor

/-- `Motor.increment` (lines 457-490).  Returns the updated motor, the
register writes issued, and the final status: with `block = True` the
method ends in `time.sleep(abs(value) / self.get_clock_hz())`, which
raises `ZeroDivisionError` when the clock registers are zero — after the
writes were issued and `counts` was already updated. -/
def increment (m : Motor) (e : Env) (value : Int) (block : Bool) :
    Motor × List Write × Except Err Unit :=
  let direction : Bool := decide (0 < value)
  let v : Int := clampValue m value
  let pdir : Bool := if m.invert then !direction else direction
  let w : List Write := [⟨m.dir_reg, if pdir then 1 else 0⟩, ⟨m.pulse_reg, |v|⟩]
  let m2 : Motor := { m with counts := m.counts + v }
  let status : Except Err Unit :=
    if block then
      match get_clock_hz e with
      | .error err => .error err
      | .ok _ => .ok ()
    else .ok ()
  (m2, w, status)

/-- Result of one `Motor.home` call: the motor state after the call (also
after a mid-loop exception), the register writes issued, the number of
`increment` moves performed, and the outcome. -/
structure HomeOut where
  motor : Motor
  writes : List Write
  moves : Nat
  result : Except Err Bool

/-- The search loop of `Motor.home` (lines 448-454): each iteration
performs a blocking `increment`, then re-reads the home pin register and
returns `True` as soon as the read differs from `initial`.  `left` is how
many tries remain, `done` how many moves were already made (so the read
taken after the current move is `home_read (done + 1)`). -/
def homeLoop (e : Env) (inc initial : Int) : Nat → Nat → Motor → HomeOut
  | 0, _, m => ⟨m, [], 0, .ok false⟩
  | left + 1, done, m =>
    let r1 := increment m e inc true
    match r1.2.2 with
    | .error err => ⟨r1.1, r1.2.1, 1, .error err⟩
    | .ok _ =>
      if e.home_read (done + 1) ≠ initial then ⟨r1.1, r1.2.1, 1, .ok true⟩
      else
        let rest := homeLoop e inc initial left (done + 1) r1.1
        ⟨rest.motor, r1.2.1 ++ rest.writes, rest.moves + 1, rest.result⟩

/-- `Motor.home` (lines 403-454): `if not self.home_reg` raises
`Exception('The home channel was not configured.')` before reading or
moving anything; otherwise the initial home pin level is read and the
search loop runs for at most `max_tries` iterations. -/
def home (m : Motor) (e : Env) (inc : Int) (max_tries : Nat := 100) : HomeOut :=
  if m.home_reg = "" then
    ⟨m, [], 0, .error (.exception "The home channel was not configured.")⟩
  else
    homeLoop e inc (e.home_read 0) max_tries 0 m

/-- JSON values as produced by the configuration codec; Python ints and
floats are both modelled as `num`. -/
inductive JVal where
  | num : ℚ → JVal
  | str : String → JVal
  | bool : Bool → JVal
  | null : JVal
deriving DecidableEq

/-- An optional integer attribute serialized to JSON (`None` ↦ `null`). -/
def optJVal : Option Int → JVal
  | none => .null
  | some n => .num n

/-- The `config` dict built by `Motor.save` (lines 141-155): every field
is included unconditionally, whether or not the optional ones are set. -/
def saveConfig (m : Motor) (e : Env) : List (String × JVal) :=
  [("clock_roll", .num e.clock_roll),
   ("clock_divisor", .num e.clock_divisor),
   ("dir_pin", .num m.dir_pin),
   ("pulse_pin", .num m.pulse_pin),
   ("home_pin", .num m.home_pin),
   ("invert", .bool m.invert),
   ("cal_slope", .num m.cal_slope),
   ("cal_zero", .num m.cal_zero),
   ("cal_units", .str m.cal_units),
   ("lim_upper", optJVal m.lim_upper),
   ("lim_lower", optJVal m.lim_lower)]

/-- The key list of the record built by `Motor.save`. -/
def saveKeys : List String :=
  ["clock_roll", "clock_divisor", "dir_pin", "pulse_pin", "home_pin",
   "invert", "cal_slope", "cal_zero", "cal_units", "lim_upper", "lim_lower"]

/-- `Motor.save` (lines 135-156): the dict is built, but the call
`json.dump(config, indent=4)` omits the mandatory file-object argument,
so the dump raises `TypeError` and nothing is written to the (already
truncated) file. -/
def save (m : Motor) (e : Env) : List (String × JVal) × Except Err Unit :=
  (saveConfig m e, .error .typeError)

/-- `mandatory` in `Motor.load` (line 165). -/
def mandatoryKeys : List String :=
  ["clock_roll", "clock_divisor", "dir_pin", "pulse_pin"]

/-- `allowed = optional.union(mandatory)` in `Motor.load` (lines 167-169). -/
def allowedKeys : List String :=
  ["home_pin", "cal_slope", "cal_zero", "cal_units",
   "lim_upper", "lim_lower", "invert"] ++ mandatoryKeys

/-- Python `any()` over a collection of strings: true iff some element is
truthy, i.e. non-empty. -/
def pyAnyStr (l : List String) : Bool := l.any (fun s => decide (s ≠ ""))

/-- The schema validation of `Motor.load` (lines 176-184):
`missing = mandatory - has`, `illegal = has - allowed`, and each is
tested with Python `any(...)` — which is false when every member is the
empty string. -/
def loadCheck (keys : List String) : Except Err Unit :=
  if pyAnyStr (mandatoryKeys.filter (fun k => decide (k ∉ keys))) then
    .error (.exception "Missing mandatory parameters")
  else if pyAnyStr (keys.filter (fun k => decide (k ∉ allowedKeys))) then
    .error (.exception "Illegal configuration parameters")
  else .ok ()

/-- `Motor.set_pins` (lines 278-343).  The pin attributes are assigned
first; then `iomask |= 1 << pulse_pin` / `1 << dir_pin` raise
`ValueError` for a negative pin (after the attribute mutation and the
`DIO_DIRECTION` read, before any write); a home pin is configured only
when `home_pin >= 0`, a negative value meaning "unconfigured"; finally
the full register write sequence is issued.  No distinctness or
non-negativity validation is performed. -/
def set_pins (m : Motor) (e : Env) (dir_pin pulse_pin : Int)
    (home_pin : Int := -1) (invert : Bool := false) :
    Motor × List Write × Except Err Unit :=
  let m1 : Motor :=
    { m with dir_pin := dir_pin, dir_reg := s!"DIO{dir_pin}",
             pulse_pin := pulse_pin,
             pulse_reg := s!"DIO{pulse_pin}_EF_CONFIG_C",
             invert := invert }
  if pulse_pin < 0 ∨ dir_pin < 0 then
    (m1, [], .error .valueError)
  else
    let iomask : Nat := e.dio_direction ||| (1 <<< pulse_pin.toNat)
    let iomask : Nat := iomask ||| (1 <<< dir_pin.toNat)
    let m2 : Motor :=
      if 0 ≤ home_pin then
        { m1 with home_pin := home_pin, home_reg := s!"DIO{home_pin}" }
      else
        { m1 with home_pin := -1, home_reg := "" }
    let iomask : Nat :=
      if 0 ≤ home_pin then iomask &&& (0xFFFFFFFF ^^^ (1 <<< home_pin.toNat))
      else iomask
    let roll := e.clock_roll
    let w : List Write :=
      [⟨"DIO_ANALOG_ENABLE", 0x0F⟩,
       ⟨"DIO_DIRECTION", (iomask : Int)⟩,
       ⟨m2.dir_reg, 0⟩,
       ⟨s!"DIO{pulse_pin}_EF_ENABLE", 0⟩,
       ⟨s!"DIO{pulse_pin}_EF_INDEX", 2⟩,
       ⟨s!"DIO{pulse_pin}_EF_CONFIG_B", 0⟩,
       ⟨s!"DIO{pulse_pin}_EF_CONFIG_A", (roll / 2 : Nat)⟩,
       ⟨s!"DIO{pulse_pin}_EF_CONFIG_C", 1⟩,
       ⟨s!"DIO{pulse_pin}", 0⟩,
       ⟨s!"DIO{pulse_pin}_EF_ENABLE", 1⟩,
       ⟨m2.dir_reg, 1⟩,
       ⟨m2.pulse_reg, 1⟩]
    (m2, w, .ok ())

/-- The divisor-reduction loop of `Motor.set_clock_hz` (lines 272-274):
while `roll` exceeds the unsigned 32-bit range, halve `roll` and double
`divisor`. -/
def clockParams (roll divisor : Nat) : Nat × Nat :=
  if h : 0xFFFFFFFF < roll then clockParams (roll / 2) (divisor * 2)
  else (roll, divisor)
termination_by roll
decreasing_by exact Nat.div_lt_self (by omega) (by omega)

/-- `roll = int(80e6 / abs(rate))` from `Motor.set_clock_hz` (line 270),
with the float arithmetic modelled exactly over `ℚ` (`int()` truncates,
which is `Int.floor` for this non-negative quotient). -/
def set_clock_hz_roll (rate : ℚ) : Nat :=
  (Int.floor ((80000000 : ℚ) / |rate|)).toNat

/-- The register write sequence of `Motor.set_clock` (lines 260-263). -/
def set_clock_writes (roll divisor : Nat) : List Write :=
  [⟨"DIO_EF_CLOCK0_ENABLE", 0⟩,
   ⟨"DIO_EF_CLOCK0_ROLL_VALUE", (roll : Int)⟩,
   ⟨"DIO_EF_CLOCK0_DIVISOR", (divisor : Int)⟩,
   ⟨"DIO_EF_CLOCK0_ENABLE", 1⟩]

/-- `Motor.set_clock_hz` (lines 266-275): `80e6 / abs(rate)` raises
`ZeroDivisionError` when `rate == 0`; otherwise the roll/divisor pair is
computed and handed to `set_clock` with no further validation (a zero
roll is written as-is). -/
def set_clock_hz (rate : ℚ) : Except Err ((Nat × Nat) × List Write) :=
  if rate = 0 then .error .zeroDivision
  else
    let rd := clockParams (set_clock_hz_roll rate) 1
    .ok (rd, set_clock_writes rd.1 rd.2)

/-- The counts-to-physical map `cal_slope * (counts - cal_zero)` used by
`Motor.get_cal` (line 532) and documented in `set_cal` (line 541). -/
def to_physical (zero slope c : ℚ) : ℚ := slope * (c - zero)

/-- The physical-to-counts map `value / cal_slope + cal_zero` used by
`Motor.go_cal` (line 520) and `set_lim_upper`/`set_lim_lower`
(lines 370, 388). -/
def to_counts (zero slope p : ℚ) : ℚ := p / slope + zero

/-- `Motor.get_cal` (lines 528-532). -/
def get_cal (m : Motor) : ℚ := to_physical m.cal_zero m.cal_slope m.counts

/-- A device environment with a configured 1 kHz clock and a home pin
whose level flips from 0 to 1 between the 2nd and 3rd read after the
initial one. -/
def envFlip3 : Env :=
  { clock_roll := 80000, clock_divisor := 1, dio_direction := 0,
    home_read := fun k => if k < 3 then 0 else 1 }

/-- A device environment with a configured clock and a constant-low home
pin. -/
def envQuiet : Env :=
  { clock_roll := 80000, clock_divisor := 1, dio_direction := 0,
    home_read := fun _ => 0 }

/-- Motor of the C1 scenario: `counts = 90`, `lim_upper = 100`. -/
def motorC1 : Motor := { initMotor with counts := 90, lim_upper := some 100 }

/-- Motor with a bound home pin (as left by `set_pins(5, 7, 9)`). -/
def motorHome : Motor :=
  { initMotor with dir_pin := 5, dir_reg := "DIO5", pulse_pin := 7,
                   pulse_reg := "DIO7_EF_CONFIG_C", home_pin := 9,
                   home_reg := "DIO9" }

/-- Motor of the C10 scenario: `counts = 5` strictly below
`lim_lower = 10`. -/
def motorBelow : Motor := { initMotor with counts := 5, lim_lower := some 10 }

/-- With nonzero clock registers the blocking sleep of `increment`
succeeds, so the call reports no error. -/
theorem increment_ok (m : Motor) (e : Env) (v : Int)
    (hd : e.clock_divisor ≠ 0) (hr : e.clock_roll ≠ 0) :
    (increment m e v true).2.2 = .ok () := by
  unfold increment get_clock_hz clock_hz
  simp [hd, hr]

/-- C1: `increment` applies the full requested delta when the relevant
bound is unset, and otherwise clamps it so that the updated `counts`
never passes the bound: a positive move with `lim_upper = u` ends with
`counts ≤ u`, a negative move with `lim_lower = l` ends with
`counts ≥ l`. -/
theorem increment_respects_limits (m : Motor) (e : Env) (v : Int) (b : Bool) :
    ((increment m e v b).1).counts = m.counts + clampValue m v
    ∧ (∀ u : Int, 0 < v → m.lim_upper = some u →
        ((increment m e v b).1).counts ≤ u)
    ∧ (∀ l : Int, v < 0 → m.lim_lower = some l →
        l ≤ ((increment m e v b).1).counts)
    ∧ (0 < v → m.lim_upper = none →
        ((increment m e v b).1).counts = m.counts + v)
    ∧ (v < 0 → m.lim_lower = none →
        ((increment m e v b).1).counts = m.counts + v) := by
  have hc : ((increment m e v b).1).counts = m.counts + clampValue m v := rfl
  refine ⟨hc, ?_, ?_, ?_, ?_⟩
  · intro u hv hu
    rw [hc]
    simp only [clampValue, if_pos hv, hu]
    have := min_le_right v (u - m.counts)
    omega
  · intro l hv hl
    rw [hc]
    have hnot : ¬ 0 < v := by omega
    simp only [clampValue, if_neg hnot, hl]
    have := le_max_right v (l - m.counts)
    omega
  · intro hv hu
    rw [hc]
    simp [clampValue, if_pos hv, hu]
  · intro hv hl
    rw [hc]
    have hnot : ¬ 0 < v := by omega
    simp [clampValue, if_neg hnot, hl]

/-- C1 witness: the spec scenario — `counts = 90`, `lim_upper = 100`,
`increment(50)` ends at `counts = 100`, not 140. -/
theorem increment_respects_limits_witness :
    (0 : Int) < 50
    ∧ ((increment motorC1 envQuiet 50 false).1).counts ≤ 100
    ∧ ((increment motorC1 envQuiet 50 false).1).counts = 100 :=
  ⟨by decide,
   (increment_respects_limits motorC1 envQuiet 50 false).2.1 100 (by decide) rfl,
   by decide⟩

/-- C10: a zero relative move takes the negative-direction branch and is
clamped against the lower limit: with `lim_lower = l` and `counts < l`,
`increment(0)` moves `counts` up to exactly `l` (a positive correcting
delta); with the bound unset or `counts ≥ l` it leaves `counts`
unchanged. -/
theorem increment_zero_clamps_lower (m : Motor) (e : Env) (b : Bool) :
    (∀ l : Int, m.lim_lower = some l → m.counts < l →
        ((increment m e 0 b).1).counts = l
        ∧ 0 < clampValue m 0)
    ∧ (m.lim_lower = none → ((increment m e 0 b).1).counts = m.counts)
    ∧ (∀ l : Int, m.lim_lower = some l → l ≤ m.counts →
        ((increment m e 0 b).1).counts = m.counts) := by
  have hc : ((increment m e 0 b).1).counts = m.counts + clampValue m 0 := rfl
  have hnot : ¬ (0 : Int) < 0 := by omega
  refine ⟨?_, ?_, ?_⟩
  · intro l hl hlt
    constructor
    · rw [hc]
      simp only [clampValue, if_neg hnot, hl]
      omega
    · simp only [clampValue, if_neg hnot, hl]
      omega
  · intro hl
    rw [hc]
    simp [clampValue, if_neg hnot, hl]
  · intro l hl hle
    rw [hc]
    simp only [clampValue, if_neg hnot, hl]
    omega

/-- C10 witness: `counts = 5`, `lim_lower = 10`; `increment(0)` issues a
positive correcting delta and ends at `counts = 10`. -/
theorem increment_zero_clamps_lower_witness :
    ((increment motorBelow envQuiet 0 false).1).counts = 10
    ∧ 0 < clampValue motorBelow 0 :=
  (increment_zero_clamps_lower motorBelow envQuiet false).1 10 rfl (by decide)

/-- C3: calling `home` with no home pin bound fails with the
home-not-configured exception before issuing any motion: no register is
written, no move is counted, and the motor state (in particular
`counts`) is unchanged. -/
theorem home_unconfigured_raises (m : Motor) (e : Env) (inc : Int)
    (n : Nat) (h : m.home_reg = "") :
    home m e inc n =
      ⟨m, [], 0, .error (.exception "The home channel was not configured.")⟩ := by
  unfold home
  rw [if_pos h]

/-- C3 witness: a fresh motor has no home pin bound; `home(5)` fails with
the exception, writes nothing, and leaves the motor untouched. -/
theorem home_unconfigured_raises_witness :
    home initMotor envQuiet 5 100 =
      ⟨initMotor, [], 0,
       .error (.exception "The home channel was not configured.")⟩ :=
  home_unconfigured_raises initMotor envQuiet 5 100 rfl

/-- C9: for a positive calibration slope, converting counts to physical
units and back is the identity (exactly, over `ℚ`); `get_cal` is the
forward map at the motor's current counts. -/
theorem cal_roundtrip (zero slope c : ℚ) (h : 0 < slope) :
    to_counts zero slope (to_physical zero slope c) = c := by
  have hs : slope ≠ 0 := ne_of_gt h
  unfold to_counts to_physical
  field_simp

/-- C9 witness: with `zero = 0`, `slope = 9/10`, counts `100` round-trip
exactly. -/
theorem cal_roundtrip_witness :
    (0 : ℚ) < 9 / 10
    ∧ to_counts 0 (9 / 10) (to_physical 0 (9 / 10) 100) = 100 :=
  ⟨by norm_num, cal_roundtrip 0 (9 / 10) 100 (by norm_num)⟩

/-- C4 counterexample: on a freshly initialized motor the home pin is
unconfigured (`home_pin = -1`, `home_reg = ''`) and both limits are
unset, yet the record built by `save` still contains the `home_pin`,
`lim_upper` and `lim_lower` fields — so an optional field is NOT written
"exactly when it is currently set". -/
theorem save_emits_unset_optional_fields :
    initMotor.home_pin = -1 ∧ initMotor.home_reg = ""
    ∧ initMotor.lim_upper = none ∧ initMotor.lim_lower = none
    ∧ "home_pin" ∈ (saveConfig initMotor envQuiet).map Prod.fst
    ∧ "lim_upper" ∈ (saveConfig initMotor envQuiet).map Prod.fst
    ∧ "lim_lower" ∈ (saveConfig initMotor envQuiet).map Prod.fst := by
  refine ⟨rfl, rfl, rfl, rfl, ?_, ?_, ?_⟩ <;> decide

/-- C4 amended: `save` builds a record whose key set is always the same
eleven keys — the four mandatory fields plus every optional field,
whether set or not (unset ones carry their sentinel or `null` value) —
and no others; moreover the `json.dump(config, indent=4)` call lacks its
file argument, so the save itself fails with `TypeError` and writes
nothing. -/
theorem save_record_field_set (m : Motor) (e : Env) :
    (saveConfig m e).map Prod.fst = saveKeys
    ∧ (save m e).2 = .error .typeError :=
  ⟨rfl, rfl⟩

/-- C5 counterexample: a record holding all four mandatory keys plus the
unrecognized key `""` is accepted by the load-time schema check, because
Python's `any()` over the singleton set of illegal keys sees only the
falsy empty string — an unknown key that is NOT rejected. -/
theorem load_accepts_empty_unknown_key :
    loadCheck ["clock_roll", "clock_divisor", "dir_pin", "pulse_pin", ""] = .ok ()
    ∧ "" ∉ allowedKeys := by
  constructor
  · rfl
  · decide

/-- C5 amended: the schema check fails iff some mandatory field is absent
or some unrecognized key with a non-empty name is present; a record whose
only unrecognized key is the empty string `""` is accepted, because the
check uses Python `any()` over the illegal-key set and `""` is falsy.
(In particular a record missing `pulse_pin` is rejected, and one with the
extra key `"foo"` is rejected.) -/
theorem load_rejects_iff (keys : List String) :
    loadCheck keys ≠ .ok () ↔
      ((∃ k, k ∈ mandatoryKeys ∧ k ∉ keys)
        ∨ (∃ k, k ∈ keys ∧ k ∉ allowedKeys ∧ k ≠ "")) := by
  have hm : ∀ k, k ∈ mandatoryKeys → ¬ k = "" := by decide
  have hA : (pyAnyStr (mandatoryKeys.filter (fun k => decide (k ∉ keys))) = true)
      ↔ ∃ k, k ∈ mandatoryKeys ∧ k ∉ keys := by
    simp only [pyAnyStr, List.any_eq_true, List.mem_filter, decide_eq_true_eq]
    constructor
    · rintro ⟨k, ⟨hk1, hk2⟩, _⟩
      exact ⟨k, hk1, hk2⟩
    · rintro ⟨k, hk1, hk2⟩
      exact ⟨k, ⟨hk1, hk2⟩, hm k hk1⟩
  have hB : (pyAnyStr (keys.filter (fun k => decide (k ∉ allowedKeys))) = true)
      ↔ ∃ k, k ∈ keys ∧ k ∉ allowedKeys ∧ k ≠ "" := by
    simp only [pyAnyStr, List.any_eq_true, List.mem_filter, decide_eq_true_eq]
    constructor
    · rintro ⟨k, ⟨hk1, hk2⟩, hk3⟩
      exact ⟨k, hk1, hk2, hk3⟩
    · rintro ⟨k, hk1, hk2, hk3⟩
      exact ⟨k, ⟨hk1, hk2⟩, hk3⟩
  by_cases h1 : ∃ k, k ∈ mandatoryKeys ∧ k ∉ keys
  · have ha := hA.mpr h1
    have hval : loadCheck keys = .error (.exception "Missing mandatory parameters") := by
      unfold loadCheck
      rw [if_pos ha]
    rw [hval]
    constructor
    · intro _
      exact Or.inl h1
    · intro _ hc
      exact Except.noConfusion hc
  · have ha : pyAnyStr (mandatoryKeys.filter (fun k => decide (k ∉ keys))) = false :=
      Bool.eq_false_iff.mpr (fun hc => h1 (hA.mp hc))
    by_cases h2 : ∃ k, k ∈ keys ∧ k ∉ allowedKeys ∧ k ≠ ""
    · have hb := hB.mpr h2
      have hval : loadCheck keys
          = .error (.exception "Illegal configuration parameters") := by
        unfold loadCheck
        rw [if_neg (by rw [ha]; exact Bool.false_ne_true), if_pos hb]
      rw [hval]
      constructor
      · intro _
        exact Or.inr h2
      · intro _ hc
        exact Except.noConfusion hc
    · have hb : pyAnyStr (keys.filter (fun k => decide (k ∉ allowedKeys))) = false :=
        Bool.eq_false_iff.mpr (fun hc => h2 (hB.mp hc))
      have hval : loadCheck keys = .ok () := by
        unfold loadCheck
        rw [if_neg (by rw [ha]; exact Bool.false_ne_true), if_neg (by rw [hb]; exact Bool.false_ne_true)]
      rw [hval]
      simp [h1, h2]

/-- The home search loop returns failure after exhausting all remaining
tries when every re-read of the home pin equals the initial level. -/
theorem homeLoop_exhausts (e : Env) (inc initial : Int)
    (hd : e.clock_divisor ≠ 0) (hr : e.clock_roll ≠ 0) :
    ∀ (left done : Nat) (m : Motor),
      (∀ k, k < left → e.home_read (done + 1 + k) = initial) →
      (homeLoop e inc initial left done m).result = .ok false
      ∧ (homeLoop e inc initial left done m).moves = left := by
  intro left
  induction left with
  | zero =>
    intro done m _
    exact ⟨rfl, rfl⟩
  | succ n ih =>
    intro done m h
    have hst := increment_ok m e inc hd hr
    have hread : e.home_read (done + 1) = initial := by
      have h0 := h 0 (Nat.succ_pos n)
      simpa using h0
    have hshift : ∀ k, k < n → e.home_read (done + 1 + 1 + k) = initial := by
      intro k hk
      have hx := h (k + 1) (by omega)
      rw [show done + 1 + (k + 1) = done + 1 + 1 + k by omega] at hx
      exact hx
    have hrec := ih (done + 1) (increment m e inc true).1 hshift
    simp only [homeLoop]
    rw [hst]
    rw [if_neg (by simp [hread])]
    exact ⟨hrec.1, by simp [hrec.2]⟩

/-- The home search loop returns success after exactly `i + 1` moves when
the re-read after the `(i+1)`-st move is the first that differs from the
initial level. -/
theorem homeLoop_finds (e : Env) (inc initial : Int)
    (hd : e.clock_divisor ≠ 0) (hr : e.clock_roll ≠ 0) :
    ∀ (left i done : Nat) (m : Motor),
      i < left →
      e.home_read (done + 1 + i) ≠ initial →
      (∀ j, j < i → e.home_read (done + 1 + j) = initial) →
      (homeLoop e inc initial left done m).result = .ok true
      ∧ (homeLoop e inc initial left done m).moves = i + 1 := by
  intro left
  induction left with
  | zero =>
    intro i done m hi
    exact absurd hi (Nat.not_lt_zero i)
  | succ n ih =>
    intro i done m hi hne hj
    have hst := increment_ok m e inc hd hr
    cases i with
    | zero =>
      have hne0 : e.home_read (done + 1) ≠ initial := by simpa using hne
      simp only [homeLoop]
      rw [hst]
      rw [if_pos (by simpa using hne0)]
      exact ⟨rfl, rfl⟩
    | succ i2 =>
      have hread : e.home_read (done + 1) = initial := by
        have h0 := hj 0 (Nat.succ_pos i2)
        simpa using h0
      have hne2 : e.home_read (done + 1 + 1 + i2) ≠ initial := by
        rw [show done + 1 + 1 + i2 = done + 1 + (i2 + 1) by omega]
        exact hne
      have hj2 : ∀ j, j < i2 → e.home_read (done + 1 + 1 + j) = initial := by
        intro j hjlt
        have hx := hj (j + 1) (by omega)
        rw [show done + 1 + (j + 1) = done + 1 + 1 + j by omega] at hx
        exact hx
      have hrec := ih i2 (done + 1) (increment m e inc true).1 (by omega) hne2 hj2
      simp only [homeLoop]
      rw [hst]
      rw [if_neg (by simp [hread])]
      exact ⟨hrec.1, by simp [hrec.2]⟩

/-- C2: with a bound home pin (and a configured clock, so the blocking
moves do not fault), `home` reads the initial home pin level, then moves
by `inc` and re-reads up to `max_tries` times: it returns `True` after
exactly `i + 1` moves when the read after move `i + 1` is the first that
differs from the initial level, and returns `False` after exactly
`max_tries` moves when no read changed. -/
theorem home_seeks_until_level_change (m : Motor) (e : Env) (inc : Int)
    (n : Nat) (hreg : m.home_reg ≠ "")
    (hd : e.clock_divisor ≠ 0) (hr : e.clock_roll ≠ 0) :
    ((∀ k, k < n → e.home_read (k + 1) = e.home_read 0) →
        (home m e inc n).result = .ok false ∧ (home m e inc n).moves = n)
    ∧ (∀ i, i < n → e.home_read (i + 1) ≠ e.home_read 0 →
        (∀ j, j < i → e.home_read (j + 1) = e.home_read 0) →
        (home m e inc n).result = .ok true ∧ (home m e inc n).moves = i + 1) := by
  have hhome : home m e inc n = homeLoop e inc (e.home_read 0) n 0 m := by
    unfold home
    rw [if_neg hreg]
  constructor
  · intro hall
    rw [hhome]
    exact homeLoop_exhausts e inc (e.home_read 0) hd hr n 0 m
      (fun k hk => by
        rw [show 0 + 1 + k = k + 1 by omega]
        exact hall k hk)
  · intro i hi hne hj
    rw [hhome]
    exact homeLoop_finds e inc (e.home_read 0) hd hr n i 0 m hi
      (by rw [show 0 + 1 + i = i + 1 by omega]; exact hne)
      (fun j hjlt => by
        rw [show 0 + 1 + j = j + 1 by omega]
        exact hj j hjlt)

/-- C2 witness: the spec scenario — home pin bound, initial level 0, the
level flips to 1 on the 3rd move of `home(increment = 5, max_tries =
10)`; `home` returns `True` having issued exactly 3 increments. -/
theorem home_seeks_until_level_change_witness :
    (home motorHome envFlip3 5 10).result = .ok true
    ∧ (home motorHome envFlip3 5 10).moves = 3 :=
  (home_seeks_until_level_change motorHome envFlip3 5 10 (by decide)
      (by decide) (by decide)).2 2 (by decide) (by decide) (by decide)

/-- C6 counterexample: `set_pins(3, 3)` — direction and pulse pin equal —
succeeds without any error and issues the full 12-register write
sequence, and both attributes end up as pin 3: the claimed
duplicate-pin validation does not exist. -/
theorem set_pins_accepts_duplicate_pins :
    (set_pins initMotor envQuiet 3 3 (-1) false).2.2 = .ok ()
    ∧ (set_pins initMotor envQuiet 3 3 (-1) false).2.1.length = 12
    ∧ (set_pins initMotor envQuiet 3 3 (-1) false).1.dir_pin = 3
    ∧ (set_pins initMotor envQuiet 3 3 (-1) false).1.pulse_pin = 3 := by
  refine ⟨rfl, rfl, rfl, rfl⟩

/-- C6 amended: `set_pins` validates nothing.  It succeeds — writing the
full 12-register sequence — exactly when `dir_pin` and `pulse_pin` are
non-negative, regardless of duplicates; a negative `home_pin` means
"home unconfigured" rather than an error; and a negative `dir_pin` or
`pulse_pin` fails only incidentally (`ValueError` from `1 << pin`),
after the pin attributes were already mutated, with no register
written. -/
theorem set_pins_no_validation (m : Motor) (e : Env) (dp pp hp : Int)
    (inv : Bool) :
    ((set_pins m e dp pp hp inv).2.2 = .ok () ↔ 0 ≤ dp ∧ 0 ≤ pp)
    ∧ (pp < 0 ∨ dp < 0 → (set_pins m e dp pp hp inv).2.1 = []
        ∧ (set_pins m e dp pp hp inv).1.dir_pin = dp
        ∧ (set_pins m e dp pp hp inv).1.pulse_pin = pp)
    ∧ (0 ≤ dp → 0 ≤ pp → (set_pins m e dp pp hp inv).2.1.length = 12)
    ∧ (0 ≤ dp → 0 ≤ pp → hp < 0 →
        (set_pins m e dp pp hp inv).1.home_pin = -1
        ∧ (set_pins m e dp pp hp inv).1.home_reg = "") := by
  by_cases hneg : pp < 0 ∨ dp < 0
  · have hval : (set_pins m e dp pp hp inv).2.2 = .error .valueError := by
      unfold set_pins
      rw [if_pos hneg]
    refine ⟨?_, ?_, ?_, ?_⟩
    · rw [hval]
      constructor
      · intro hc
        exact Except.noConfusion hc
      · intro hc
        omega
    · intro _
      unfold set_pins
      rw [if_pos hneg]
      exact ⟨rfl, rfl, rfl⟩
    · intro h1 h2
      omega
    · intro h1 h2 _
      omega
  · have hok : ¬ (pp < 0 ∨ dp < 0) := hneg
    refine ⟨?_, ?_, ?_, ?_⟩
    · unfold set_pins
      rw [if_neg hok]
      by_cases hh : 0 ≤ hp <;> simp [hh] <;> omega
    · intro hcon
      exact absurd hcon hok
    · intro _ _
      unfold set_pins
      rw [if_neg hok]
      by_cases hh : 0 ≤ hp <;> simp [hh]
    · intro _ _ hhp
      have hh : ¬ 0 ≤ hp := by omega
      unfold set_pins
      rw [if_neg hok]
      simp [hh]

/-- C6 witness: a duplicate-pin call with a negative home pin succeeds,
issues all 12 writes, and records the home pin as unconfigured. -/
theorem set_pins_no_validation_witness :
    (0 : Int) ≤ 4
    ∧ (set_pins initMotor envQuiet 4 4 (-1) true).2.1.length = 12
    ∧ (set_pins initMotor envQuiet 4 4 (-1) true).1.home_reg = "" :=
  ⟨by decide,
   (set_pins_no_validation initMotor envQuiet 4 4 (-1) true).2.2.1
     (by decide) (by decide),
   ((set_pins_no_validation initMotor envQuiet 4 4 (-1) true).2.2.2
     (by decide) (by decide) (by decide)).2⟩

/-- Invariant of the divisor-reduction loop: starting from `(roll, d)` it
ends with a 32-bit `r`, a divisor `d * 2 ^ k`, and the product
`divisor * roll` bracketed so that at most one halving step of precision
is lost: `D * r ≤ d * roll` and `d * (roll + 1) ≤ D * (r + 1)`. -/
theorem clockParams_spec (roll : Nat) : ∀ d : Nat,
    (clockParams roll d).1 ≤ 0xFFFFFFFF
    ∧ (∃ k : Nat, (clockParams roll d).2 = d * 2 ^ k)
    ∧ (clockParams roll d).2 * (clockParams roll d).1 ≤ d * roll
    ∧ d * (roll + 1) ≤ (clockParams roll d).2 * ((clockParams roll d).1 + 1)
    ∧ (1 ≤ roll → 1 ≤ (clockParams roll d).1) := by
  induction roll using Nat.strong_induction_on with
  | _ roll ih =>
    intro d
    by_cases h : 0xFFFFFFFF < roll
    · have hrec : clockParams roll d = clockParams (roll / 2) (d * 2) := by
        rw [clockParams]
        rw [dif_pos h]
      have hlt : roll / 2 < roll := Nat.div_lt_self (by omega) (by omega)
      obtain ⟨h1, ⟨k, hk⟩, h3, h4, h5⟩ := ih (roll / 2) hlt (d * 2)
      rw [hrec]
      refine ⟨h1, ⟨k + 1, by rw [hk]; ring⟩, ?_, ?_, ?_⟩
      · calc (clockParams (roll / 2) (d * 2)).2 * (clockParams (roll / 2) (d * 2)).1
            ≤ (d * 2) * (roll / 2) := h3
          _ = d * ((roll / 2) * 2) := by ring
          _ ≤ d * roll := mul_le_mul_left' (Nat.div_mul_le_self roll 2) d
      · calc d * (roll + 1)
            ≤ d * (2 * (roll / 2) + 2) := mul_le_mul_left' (by omega) d
          _ = (d * 2) * (roll / 2 + 1) := by ring
          _ ≤ _ := h4
      · intro _
        exact h5 (by omega)
    · have hrec : clockParams roll d = (roll, d) := by
        rw [clockParams]
        rw [dif_neg h]
      rw [hrec]
      exact ⟨by omega, ⟨0, by ring⟩, le_refl _, le_refl _, fun hh => hh⟩

/-- C7 counterexample: at the positive target frequency `f = 160 MHz`
(above the 80 MHz base clock) `set_clock_hz` computes `roll = 0`,
`divisor = 1` and writes them without complaint, and the realized
frequency `80e6 / divisor / roll` is undefined (a `ZeroDivisionError`),
so no realized frequency approximates `f`. -/
theorem set_clock_hz_overlarge_roll_zero :
    set_clock_hz 160000000 = .ok ((0, 1), set_clock_writes 0 1)
    ∧ clock_hz 0 1 = .error .zeroDivision := by
  constructor
  · have habs : |(160000000 : ℚ)| = 160000000 := by norm_num
    have hdiv : (80000000 : ℚ) / 160000000 = 1 / 2 := by norm_num
    have hfl : Int.floor ((1 : ℚ) / 2) = 0 := by
      rw [Int.floor_eq_zero_iff]
      rw [Set.mem_Ico]
      norm_num
    have hroll : set_clock_hz_roll 160000000 = 0 := by
      unfold set_clock_hz_roll
      rw [habs, hdiv, hfl]
      rfl
    have hcp : clockParams 0 1 = (0, 1) := by
      rw [clockParams]
      rw [dif_neg (by omega)]
    unfold set_clock_hz
    rw [if_neg (by norm_num)]
    simp only [hroll, hcp]
  · rfl

/-- C7 amended: for every positive target `f` not exceeding the 80 MHz
base clock (so the computed roll `⌊80e6 / f⌋` is at least 1),
`set_clock_hz` produces a roll fitting in 32 bits and a power-of-two
divisor with `d * r ≤ ⌊80e6 / f⌋ < d * (r + 1)`; hence the realized
frequency `80e6 / (d * r)` brackets `f` within one roll step:
`d * r * f ≤ 80e6 < d * (r + 1) * f`.  (For targets above 80 MHz the
computed roll is 0 and no realized frequency exists — see the
counterexample.) -/
theorem set_clock_hz_quantized (f : ℚ) (h0 : 0 < f) (hf : f ≤ 80000000) :
    ∃ r d : Nat,
      set_clock_hz f = .ok ((r, d), set_clock_writes r d)
      ∧ r ≤ 0xFFFFFFFF
      ∧ (∃ k : Nat, d = 2 ^ k)
      ∧ 1 ≤ r
      ∧ ((d : ℚ) * (r : ℚ)) * f ≤ 80000000
      ∧ (80000000 : ℚ) < ((d : ℚ) * ((r : ℚ) + 1)) * f := by
  have hne : f ≠ 0 := ne_of_gt h0
  have habs : |f| = f := abs_of_pos h0
  have hq1 : (1 : ℚ) ≤ 80000000 / f := (one_le_div h0).mpr hf
  have hfl1 : (1 : ℤ) ≤ Int.floor ((80000000 : ℚ) / f) := by
    rw [Int.le_floor]
    exact_mod_cast hq1
  have hncast : ((set_clock_hz_roll f : ℤ)) = Int.floor ((80000000 : ℚ) / f) := by
    unfold set_clock_hz_roll
    rw [habs]
    exact Int.toNat_of_nonneg (by omega)
  have hn1 : 1 ≤ set_clock_hz_roll f := by omega
  have hle_q : ((set_clock_hz_roll f : ℚ)) ≤ 80000000 / f := by
    have h := Int.floor_le ((80000000 : ℚ) / f)
    rw [← hncast] at h
    exact_mod_cast h
  have hlt_q : (80000000 : ℚ) / f < (set_clock_hz_roll f : ℚ) + 1 := by
    have h := Int.lt_floor_add_one ((80000000 : ℚ) / f)
    rw [← hncast] at h
    exact_mod_cast h
  obtain ⟨hr32, ⟨k, hk⟩, hlow, hhigh, hpos⟩ :=
    clockParams_spec (set_clock_hz_roll f) 1
  refine ⟨(clockParams (set_clock_hz_roll f) 1).1,
          (clockParams (set_clock_hz_roll f) 1).2,
          ?_, hr32, ⟨k, by simpa using hk⟩, hpos hn1, ?_, ?_⟩
  · unfold set_clock_hz
    rw [if_neg hne]
  · have hlow2 : (clockParams (set_clock_hz_roll f) 1).2
        * (clockParams (set_clock_hz_roll f) 1).1 ≤ set_clock_hz_roll f := by
      simpa using hlow
    have hdr : (((clockParams (set_clock_hz_roll f) 1).2
        * (clockParams (set_clock_hz_roll f) 1).1 : Nat) : ℚ)
        ≤ ((set_clock_hz_roll f : ℚ)) := by exact_mod_cast hlow2
    calc ((clockParams (set_clock_hz_roll f) 1).2 : ℚ)
          * ((clockParams (set_clock_hz_roll f) 1).1 : ℚ) * f
        = (((clockParams (set_clock_hz_roll f) 1).2
            * (clockParams (set_clock_hz_roll f) 1).1 : Nat) : ℚ) * f := by
          push_cast
          ring
      _ ≤ ((set_clock_hz_roll f : ℚ)) * f :=
          mul_le_mul_of_nonneg_right hdr (le_of_lt h0)
      _ ≤ (80000000 / f) * f :=
          mul_le_mul_of_nonneg_right hle_q (le_of_lt h0)
      _ = 80000000 := div_mul_cancel₀ 80000000 hne
  · have hhigh2 : set_clock_hz_roll f + 1 ≤ (clockParams (set_clock_hz_roll f) 1).2
        * ((clockParams (set_clock_hz_roll f) 1).1 + 1) := by
      simpa using hhigh
    have hup : ((set_clock_hz_roll f : ℚ)) + 1
        ≤ (((clockParams (set_clock_hz_roll f) 1).2
            * ((clockParams (set_clock_hz_roll f) 1).1 + 1) : Nat) : ℚ) := by
      exact_mod_cast hhigh2
    calc (80000000 : ℚ)
        = (80000000 / f) * f := (div_mul_cancel₀ 80000000 hne).symm
      _ < (((set_clock_hz_roll f : ℚ)) + 1) * f :=
          mul_lt_mul_of_pos_right hlt_q h0
      _ ≤ (((clockParams (set_clock_hz_roll f) 1).2
            * ((clockParams (set_clock_hz_roll f) 1).1 + 1) : Nat) : ℚ) * f :=
          mul_le_mul_of_nonneg_right hup (le_of_lt h0)
      _ = ((clockParams (set_clock_hz_roll f) 1).2 : ℚ)
            * (((clockParams (set_clock_hz_roll f) 1).1 : ℚ) + 1) * f := by
          push_cast
          ring

/-- C7 witness: at the 1 kHz target of `global_init` the computed pair is
valid and brackets the target within one quantization step. -/
theorem set_clock_hz_quantized_witness :
    (0 : ℚ) < 1000 ∧ (1000 : ℚ) ≤ 80000000
    ∧ ∃ r d : Nat,
        set_clock_hz 1000 = .ok ((r, d), set_clock_writes r d)
        ∧ r ≤ 0xFFFFFFFF
        ∧ (∃ k : Nat, d = 2 ^ k)
        ∧ 1 ≤ r
        ∧ ((d : ℚ) * (r : ℚ)) * 1000 ≤ 80000000
        ∧ (80000000 : ℚ) < ((d : ℚ) * ((r : ℚ) + 1)) * 1000 :=
  ⟨by norm_num, by norm_num,
   set_clock_hz_quantized 1000 (by norm_num) (by norm_num)⟩

/-- C8 counterexample: `set_clock_hz(0)` fails with `ZeroDivisionError`
(there is no typed `InvalidFrequency` anywhere in the code), and the
over-large target 200 MHz — whose computed roll is 0 — does not fail at
all: the zero roll is silently written to the clock registers. -/
theorem set_clock_hz_roll_zero_silent :
    set_clock_hz 0 = .error .zeroDivision
    ∧ set_clock_hz 200000000 = .ok ((0, 1), set_clock_writes 0 1) := by
  constructor
  · unfold set_clock_hz
    rw [if_pos rfl]
  · have habs : |(200000000 : ℚ)| = 200000000 := by norm_num
    have hdiv : (80000000 : ℚ) / 200000000 = 2 / 5 := by norm_num
    have hfl : Int.floor ((2 : ℚ) / 5) = 0 := by
      rw [Int.floor_eq_zero_iff]
      rw [Set.mem_Ico]
      norm_num
    have hroll : set_clock_hz_roll 200000000 = 0 := by
      unfold set_clock_hz_roll
      rw [habs, hdiv, hfl]
      rfl
    have hcp : clockParams 0 1 = (0, 1) := by
      rw [clockParams]
      rw [dif_neg (by omega)]
    unfold set_clock_hz
    rw [if_neg (by norm_num)]
    simp only [hroll, hcp]

/-- C8 amended: the only failure of `set_clock_hz` is the
`ZeroDivisionError` raised by `80e6 / abs(rate)` exactly when the target
is 0; every nonzero target — including over-large ones whose computed
roll is 0 — succeeds, with no `InvalidFrequency`-style validation. -/
theorem set_clock_hz_only_zero_fails (f : ℚ) :
    (set_clock_hz f = .error .zeroDivision ↔ f = 0)
    ∧ (f ≠ 0 → ∃ rd w, set_clock_hz f = .ok (rd, w)) := by
  constructor
  · constructor
    · intro h
      by_contra hne
      unfold set_clock_hz at h
      rw [if_neg hne] at h
      exact Except.noConfusion h
    · intro h
      unfold set_clock_hz
      rw [if_pos h]
  · intro hne
    refine ⟨clockParams (set_clock_hz_roll f) 1,
            set_clock_writes (clockParams (set_clock_hz_roll f) 1).1
              (clockParams (set_clock_hz_roll f) 1).2, ?_⟩
    unfold set_clock_hz
    rw [if_neg hne]

/-- C8 witness: the zero target fails with the division error; the
100 MHz target succeeds. -/
theorem set_clock_hz_only_zero_fails_witness :
    set_clock_hz 0 = .error .zeroDivision
    ∧ ∃ rd w, set_clock_hz 100000000 = .ok (rd, w) :=
  ⟨(set_clock_hz_only_zero_fails 0).1.mpr rfl,
   (set_clock_hz_only_zero_fails 100000000).2 (by norm_num)⟩
